import Mathlib

/-!
Shallow embedding of the order-system demo (EventBus.js, OrderService.js,
InventoryService.js) in Lean 4, together with theorems settling the spec
claims.

JavaScript `Map`s and plain objects used as dictionaries are modelled as
association lists (`List (κ × β)`) that preserve key insertion order, which
is exactly the iteration order of JS `Map`s and of string-keyed objects.
`Map.get` / property lookup is `mapGet`, `Map.set` / in-place mutation of a
looked-up value is `mapSet` (replace in place when the key is present,
append otherwise), and `delete obj[k]` is `mapRemove`.
-/

section AssocMap

variable {κ β : Type} [DecidableEq κ]

/-- JS `Map.get(k)` / `obj[k]`: first value stored under `k`, if any. -/
def mapGet : List (κ × β) → κ → Option β
  | [], _ => none
  | e :: t, k => if e.1 = k then some e.2 else mapGet t k

/-- JS `Map.set(k, v)` (and in-place mutation of the object found by `get`):
replace the value under `k` keeping its position, or append a new entry. -/
def mapSet (m : List (κ × β)) (k : κ) (v : β) : List (κ × β) :=
  if (mapGet m k).isSome then
    m.map (fun e => if e.1 = k then (k, v) else e)
  else
    m ++ [(k, v)]

/-- JS `delete obj[k]`: drop every entry stored under `k`. -/
def mapRemove (m : List (κ × β)) (k : κ) : List (κ × β) :=
  m.filter (fun e => decide (e.1 ≠ k))

end AssocMap

namespace EventBus

/-!
Embedding of `src/EventBus.js`.

`this.events` is a string-keyed object mapping an event name to an array of
listeners; listeners are JS function references compared by identity
(`l !== listener`), so they are modelled as values of an abstract type `H`
with decidable equality, and their behaviour is supplied separately as a
semantics `run`. A handler runs against the whole system state (which
contains the bus itself, so a handler may re-entrantly subscribe,
unsubscribe or publish) and returns the updated state together with
`some err` when it throws; in JS, side effects performed before a throw
persist, which is exactly what the returned state represents.

`emit` iterates `this.events[eventName]` with `Array.prototype.forEach`.
`off` never mutates an array in place (it rebinds the key to a fresh
`filter` result) and `on` only ever `push`es, while `forEach` is bounded by
the array length captured when iteration starts; therefore the listeners
visited by `emit` are exactly the array value present when `emit` was
entered, which the embedding takes as a snapshot.
-/

variable {τ H π α ε : Type}

/-- The listener registry `this.events` of `src/EventBus.js`. -/
structure Bus (τ H : Type) where
  events : List (τ × List H)
deriving DecidableEq

/-- A system state a handler acts on: the bus plus the rest of the world. -/
structure Sys (τ H α : Type) where
  bus : Bus τ H
  data : α
deriving DecidableEq

/-- A handler semantics: given the listener identity and a payload, transform
the system state and optionally throw (the `Option ε` component). -/
def HandlerSem (τ H π α ε : Type) :=
  H → π → Sys τ H α → Sys τ H α × Option ε

/-- `EventBus.on(eventName, listener)` of `src/EventBus.js:15` (`on` is a
reserved token in Lean, hence the primed name). -/
def on' [DecidableEq τ] (b : Bus τ H) (eventName : τ) (listener : H) : Bus τ H :=
  match mapGet b.events eventName with
  | none => ⟨b.events ++ [(eventName, [listener])]⟩
  | some hs => ⟨mapSet b.events eventName (hs ++ [listener])⟩

/-- `EventBus.off(eventName, listener)` of `src/EventBus.js:27`: rebind the
key to `filter((l) => l !== listener)`, deleting the key when the filtered
array is empty. -/
def off [DecidableEq τ] [DecidableEq H] (b : Bus τ H) (eventName : τ)
    (listener : H) : Bus τ H :=
  match mapGet b.events eventName with
  | none => b
  | some hs =>
    let filtered := hs.filter (fun l => decide (l ≠ listener))
    if filtered.isEmpty then ⟨mapRemove b.events eventName⟩
    else ⟨mapSet b.events eventName filtered⟩

/-- Sequential dispatch of an explicit listener list: each listener runs on
the state left by the previous one; a thrown error (the `Option ε` part of
`run`) is swallowed by the `try`/`catch` of `src/EventBus.js:46`, so only
the state component survives. -/
def dispatch (run : HandlerSem τ H π α ε) : List H → π → Sys τ H α → Sys τ H α
  | [], _, s => s
  | h :: t, p, s => dispatch run t p (run h p s).1

/-- `dispatch` instrumented with the list of listener invocations performed,
in order; used only to state delivery properties. -/
def dispatchTrace (run : HandlerSem τ H π α ε) :
    List H → π → Sys τ H α → Sys τ H α × List (H × π)
  | [], _, s => (s, [])
  | h :: t, p, s =>
    let r := dispatchTrace run t p (run h p s).1
    (r.1, (h, p) :: r.2)

/-- `EventBus.emit(eventName, payload)` of `src/EventBus.js:43`: look up the
listener array for the event (no-op when absent) and run every listener in
it, catching anything a listener throws. -/
def emit [DecidableEq τ] (run : HandlerSem τ H π α ε) (eventName : τ)
    (payload : π) (s : Sys τ H α) : Sys τ H α :=
  match mapGet s.bus.events eventName with
  | none => s
  | some hs => dispatch run hs payload s

/-- `emit` instrumented with the invocation trace. -/
def emitTrace [DecidableEq τ] (run : HandlerSem τ H π α ε) (eventName : τ)
    (payload : π) (s : Sys τ H α) : Sys τ H α × List (H × π) :=
  match mapGet s.bus.events eventName with
  | none => (s, [])
  | some hs => dispatchTrace run hs payload s

/-- The listener snapshot `emit` starts from (empty when the topic has no
entry). -/
def listenersD [DecidableEq τ] (s : Sys τ H α) (eventName : τ) : List H :=
  (mapGet s.bus.events eventName).getD []

end EventBus

namespace OrderSvc

/-!
Embedding of `src/OrderService.js`.

`createOrder` either throws (`ValidationError` / `DuplicateOrderError`,
distinguished in the source only by their messages) or returns the enriched
order; a throw happens before any mutation, so the embedding returns the
outcome together with the resulting order store and the list of events the
call emitted on the bus.
-/

/-- Raw `orderData`: a field absent in JS is `none`; a string field is falsy
exactly when it is absent or the empty string. -/
structure OrderData where
  orderId : Option String
  email : Option String
  item : Option String
  address : Option String
deriving DecidableEq

/-- JS truthiness of an optional string field. -/
def truthy : Option String → Bool
  | none => false
  | some s => decide (s ≠ "")

/-- The enriched order `{...orderData, timestamp, status}` built at
`src/OrderService.js:26`. -/
structure Order where
  data : OrderData
  timestamp : String
  status : String
deriving DecidableEq

/-- The two errors `createOrder` can throw, told apart in the source by
their messages (`"Missing required..."` vs `"... already exists"`). -/
inductive OrderErr
  | validationError (msg : String)
  | duplicateOrderError (orderId : String)
deriving DecidableEq

/-- Events the order service emits. -/
inductive OrdEvent
  | orderCreated (order : Order)
deriving DecidableEq

/-- The enrichment step of `src/OrderService.js:26`: stamp the timestamp and
set `status = "created"`. -/
def enrich (d : OrderData) (now : String) : Order :=
  { data := d, timestamp := now, status := "created" }

/-- `OrderService.createOrder(orderData)` of `src/OrderService.js:15`.
`now` stands for `new Date().toISOString()` (always a non-empty string).
Returns (outcome, resulting `this.orders`, events emitted). -/
def createOrder (orders : List (String × Order)) (d : OrderData)
    (now : String) :
    Except OrderErr Order × List (String × Order) × List OrdEvent :=
  if !(truthy d.orderId && truthy d.email && truthy d.item) then
    (.error (.validationError
      "Missing required order fields: orderId, email, item"), orders, [])
  else
    let oid := d.orderId.getD ""
    if (mapGet orders oid).isSome then
      (.error (.duplicateOrderError oid), orders, [])
    else
      let enriched := enrich d now
      (.ok enriched, mapSet orders oid enriched, [.orderCreated enriched])

end OrderSvc

namespace Inventory

/-!
Embedding of `src/InventoryService.js`.

Stock counts are JS numbers mutated by `+=`/`-=`; they are modelled as `Int`
so that the non-negativity invariant is a real statement. Prices are exact
decimal amounts that no operation ever computes with (they are only copied
into reservations and payloads), so they are modelled as integer cents
(`2399.99` becomes `239999`). Each operation returns the resulting state together with the list
of events it emitted on the bus, in emission order.
-/

/-- A stock item `{stock, price, category}`. -/
structure Item where
  stock : Int
  price : Int
  category : String
deriving DecidableEq

/-- The fields of an order event payload that the inventory service reads
(`orderData.orderId` and `orderData.item`). -/
structure OrderInfo where
  orderId : String
  item : String
deriving DecidableEq

/-- A reservation record as built at `src/InventoryService.js:48`; the JS
object initially has no `fulfilledAt` property (`none` here). -/
structure Reservation where
  item : String
  quantity : Int
  price : Int
  reservedAt : String
  status : String
  fulfilledAt : Option String
deriving DecidableEq

/-- The raw `itemData` argument of `addProduct` (fields may be absent). -/
structure ProductData where
  stock : Option Int
  price : Option Int
  category : Option String
deriving DecidableEq

/-- Events the inventory service emits. `productAdded` carries the raw
`itemData` spread, as in the source. -/
inductive InvEvent
  | inventoryUnavailable (d : OrderInfo)
  | outOfStock (d : OrderInfo)
  | lowStock (item : String) (currentStock : Int) (threshold : Int)
  | inventoryReserved (d : OrderInfo)
  | stockAdded (item : String) (added : Int) (total : Int)
  | productAdded (item : String) (d : ProductData)
deriving DecidableEq

/-- `this.lowStockThreshold` set in the constructor. -/
def lowStockThreshold : Int := 5

/-- The seeded `this.inventory` map of `src/InventoryService.js:6`. -/
def initialInventory : List (String × Item) :=
  [("MacBook Pro", ⟨10, 239999, "laptops"⟩),
   ("iPhone 15", ⟨25, 99999, "phones"⟩),
   ("iPad Air", ⟨15, 59999, "tablets"⟩),
   ("AirPods Pro", ⟨50, 24999, "accessories"⟩),
   ("Apple Watch", ⟨30, 39999, "wearables"⟩)]

/-- `InventoryService.checkAndReserveItem(orderData)` of
`src/InventoryService.js:31`. `now` stands for `new Date().toISOString()`.
Returns (inventory, reservations, events emitted in order). -/
def checkAndReserveItem (inv : List (String × Item))
    (res : List (String × Reservation)) (threshold : Int) (d : OrderInfo)
    (now : String) :
    List (String × Item) × List (String × Reservation) × List InvEvent :=
  match mapGet inv d.item with
  | none => (inv, res, [.inventoryUnavailable d])
  | some item =>
    if item.stock ≤ 0 then
      (inv, res, [.outOfStock d])
    else
      let newStock := item.stock - 1
      let inv' := mapSet inv d.item { item with stock := newStock }
      let res' := mapSet res d.orderId
        ⟨d.item, 1, item.price, now, "reserved", none⟩
      let lowEvents :=
        if newStock ≤ threshold then
          [InvEvent.lowStock d.item newStock threshold]
        else []
      (inv', res', lowEvents ++ [.inventoryReserved d])

/-- `InventoryService.handleDelivery(shipmentData)` of
`src/InventoryService.js:76`: when a reservation exists for the orderId,
set its status to `"fulfilled"` and (re)stamp `fulfilledAt`. -/
def handleDelivery (res : List (String × Reservation)) (orderId : String)
    (now : String) : List (String × Reservation) :=
  match mapGet res orderId with
  | none => res
  | some r =>
    mapSet res orderId { r with status := "fulfilled", fulfilledAt := some now }

/-- `InventoryService.addStock(itemName, quantity)` of
`src/InventoryService.js:92`: silently does nothing when the item is
unknown; otherwise `stock += quantity` and emit `inventory:stock_added`. -/
def addStock (inv : List (String × Item)) (itemName : String)
    (quantity : Int) : List (String × Item) × List InvEvent :=
  match mapGet inv itemName with
  | none => (inv, [])
  | some item =>
    let total := item.stock + quantity
    (mapSet inv itemName { item with stock := total },
     [.stockAdded itemName quantity total])

/-- JS `x || dflt` on an optional string (falsy when absent or empty). -/
def jsOrString (o : Option String) (dflt : String) : String :=
  match o with
  | none => dflt
  | some s => if s = "" then dflt else s

/-- `InventoryService.addProduct(itemName, itemData)` of
`src/InventoryService.js:112`: `||`-defaults the fields (`0`, `0`,
`"general"`), stores the item, emits `inventory:product_added` with the raw
`itemData`. -/
def addProduct (inv : List (String × Item)) (itemName : String)
    (d : ProductData) : List (String × Item) × List InvEvent :=
  (mapSet inv itemName
    ⟨d.stock.getD 0, d.price.getD 0, jsOrString d.category "general"⟩,
   [.productAdded itemName d])

/-- Every item in the inventory has non-negative stock. -/
def allStockNonneg (inv : List (String × Item)) : Prop :=
  ∀ e ∈ inv, 0 ≤ e.2.stock

instance (inv : List (String × Item)) : Decidable (allStockNonneg inv) :=
  List.decidableBAll _ inv

end Inventory

namespace Demo

/-!
Concrete instances used to exercise the generic event-bus theorems: topics
are strings, listener identities are naturals, payloads and the non-bus
state are naturals, errors are `Unit`. Listener `1` always throws after
updating the state; the others never throw.
-/

/-- A concrete handler semantics: listener `h` adds `h + payload` to the
counter; listener `1` then throws. -/
def demoRun : EventBus.HandlerSem String Nat Nat Nat Unit :=
  fun h p s =>
    ({ s with data := s.data + h + p }, if h = 1 then some () else none)

/-- A concrete system state: listeners `0, 1, 2` on `"t"`, listener `7` on
`"u"`, counter `0`. -/
def demoSys : EventBus.Sys String Nat Nat :=
  { bus := ⟨[("t", [0, 1, 2]), ("u", [7])]⟩, data := 0 }

end Demo

section AssocMapTheorems

variable {κ β : Type} [DecidableEq κ]
theorem mapGet_map_replace_self (m : List (κ × β)) (k : κ) (v : β)
    (hsome : (mapGet m k).isSome) :
    mapGet (m.map (fun e => if e.1 = k then (k, v) else e)) k = some v := by
  induction m with
  | nil => simp [mapGet] at hsome
  | cons e t ih =>
    by_cases h : e.1 = k
    · simp [mapGet, h]
    · simp only [mapGet, h, if_neg, if_false] at hsome
      simpa [mapGet, h] using ih hsome

theorem mapGet_map_replace_ne (m : List (κ × β)) (k k' : κ) (v : β) (h : k' ≠ k) :
    mapGet (m.map (fun e => if e.1 = k then (k, v) else e)) k' = mapGet m k' := by
  induction m with
  | nil => simp [mapGet]
  | cons e t ih =>
    by_cases he : e.1 = k
    · simp [mapGet, he, Ne.symm h, ih]
    · by_cases he' : e.1 = k'
      · simp [mapGet, he, he', h]
      · simp [mapGet, he, he', ih]

theorem mapGet_append_single (m : List (κ × β)) (k k' : κ) (v : β) :
    mapGet (m ++ [(k, v)]) k' =
      ((mapGet m k').orElse (fun _ => if k = k' then some v else none)) := by
  induction m with
  | nil => simp [mapGet]
  | cons e t ih =>
    by_cases he' : e.1 = k'
    · simp [mapGet, he']
    · simp [mapGet, he', ih]

theorem mapGet_mapSet_self (m : List (κ × β)) (k : κ) (v : β) :
    mapGet (mapSet m k v) k = some v := by
  unfold mapSet
  split
  · exact mapGet_map_replace_self m k v (by assumption)
  · rename_i hnone
    rw [mapGet_append_single]
    simp only [Option.not_isSome_iff_eq_none] at hnone
    simp [hnone]

theorem mapGet_mapSet_ne (m : List (κ × β)) (k k' : κ) (v : β) (h : k' ≠ k) :
    mapGet (mapSet m k v) k' = mapGet m k' := by
  unfold mapSet
  split
  · exact mapGet_map_replace_ne m k k' v h
  · rw [mapGet_append_single]
    cases hmk : mapGet m k' <;> simp [hmk, Option.orElse, Ne.symm h]

theorem mapGet_some_mem (m : List (κ × β)) (k : κ) (v : β)
    (h : mapGet m k = some v) : (k, v) ∈ m := by
  induction m with
  | nil => simp [mapGet] at h
  | cons e t ih =>
    by_cases he : e.1 = k
    · simp only [mapGet, he, if_pos, Option.some.injEq] at h
      subst h
      obtain ⟨a, b⟩ := e
      simp only at he
      subst he
      exact List.mem_cons_self _ _
    · simp only [mapGet, he, if_false, if_neg, not_false_iff] at h
      exact List.mem_cons_of_mem _ (ih h)

end AssocMapTheorems

namespace EventBus

variable {τ H π α ε : Type}

theorem dispatch_append (run : HandlerSem τ H π α ε) (l₁ l₂ : List H) (p : π)
    (s : Sys τ H α) :
    dispatch run (l₁ ++ l₂) p s = dispatch run l₂ p (dispatch run l₁ p s) := by
  induction l₁ generalizing s with
  | nil => simp [dispatch]
  | cons h t ih => simp [dispatch, ih]

theorem dispatchTrace_fst (run : HandlerSem τ H π α ε) (hs : List H) (p : π)
    (s : Sys τ H α) :
    (dispatchTrace run hs p s).1 = dispatch run hs p s := by
  induction hs generalizing s with
  | nil => simp [dispatch, dispatchTrace]
  | cons h t ih => simp [dispatch, dispatchTrace, ih]

theorem dispatchTrace_snd (run : HandlerSem τ H π α ε) (hs : List H) (p : π)
    (s : Sys τ H α) :
    (dispatchTrace run hs p s).2 = hs.map (fun h => (h, p)) := by
  induction hs generalizing s with
  | nil => simp [dispatchTrace]
  | cons h t ih => simp [dispatchTrace, ih]

theorem emit_eq_dispatch [DecidableEq τ] (run : HandlerSem τ H π α ε)
    (eventName : τ) (p : π) (s : Sys τ H α) :
    emit run eventName p s = dispatch run (listenersD s eventName) p s := by
  unfold emit listenersD
  cases mapGet s.bus.events eventName <;> simp [dispatch]

theorem listenersD_on_self [DecidableEq τ] (s : Sys τ H α) (eventName : τ)
    (h' : H) (d : α) :
    listenersD (Sys.mk (on' s.bus eventName h') d) eventName
      = listenersD s eventName ++ [h'] := by
  unfold listenersD on'
  cases hg : mapGet s.bus.events eventName with
  | none =>
    simp only [hg]
    rw [mapGet_append_single]
    simp [hg]
  | some hs =>
    simp only [hg]
    rw [mapGet_mapSet_self]
    simp [hg]

/-- C1: if a listener throws while `emit(topic, payload)` dispatches, the
exception is caught at the bus boundary: every remaining listener of the
snapshot still runs with the same payload (`emit` proceeds through `post`
from the state the throwing listener left behind), no exception escapes
`emit` (its result is a plain state, with the thrown error discarded), and
any later `emit` on any topic dispatches normally to its own snapshot. -/
theorem emit_handler_fault_isolated [DecidableEq τ]
    (run : HandlerSem τ H π α ε) (eventName : τ) (p : π) (s : Sys τ H α)
    (pre post : List H) (h : H) (e : ε)
    (hsnap : mapGet s.bus.events eventName = some (pre ++ h :: post))
    (hthrow : (run h p (dispatch run pre p s)).2 = some e) :
    emit run eventName p s
      = dispatch run post p (run h p (dispatch run pre p s)).1
    ∧ ∀ (eventName' : τ) (p' : π),
        emit run eventName' p' (emit run eventName p s)
          = dispatch run (listenersD (emit run eventName p s) eventName') p'
              (emit run eventName p s) := by
  constructor
  · show emit run eventName p s = _
    unfold emit
    rw [hsnap]
    show dispatch run (pre ++ h :: post) p s = _
    rw [dispatch_append]
    simp [dispatch]
  · intro eventName' p'
    exact emit_eq_dispatch run eventName' p' _

/-- Witness for C1 at a concrete input: on topic `"t"` with snapshot
`[0, 1, 2]`, listener `1` throws, yet dispatch finishes through `[2]` and a
later publish on `"u"` behaves normally. -/
theorem emit_handler_fault_isolated_witness :
    EventBus.emit Demo.demoRun "t" 3 Demo.demoSys
      = EventBus.dispatch Demo.demoRun [2] 3
          (Demo.demoRun 1 3 (EventBus.dispatch Demo.demoRun [0] 3 Demo.demoSys)).1
    ∧ EventBus.emit Demo.demoRun "u" 9 (EventBus.emit Demo.demoRun "t" 3 Demo.demoSys)
        = EventBus.dispatch Demo.demoRun
            (EventBus.listenersD (EventBus.emit Demo.demoRun "t" 3 Demo.demoSys) "u") 9
            (EventBus.emit Demo.demoRun "t" 3 Demo.demoSys) := by
  have happ := emit_handler_fault_isolated Demo.demoRun "t" 3 Demo.demoSys
    [0] [2] 1 () (by decide) (by decide)
  exact ⟨happ.1, happ.2 "u" 9⟩

/-- C6: `emit` delivers the payload to exactly the listeners subscribed at
the moment the call starts, in subscription order: the invocation trace is
the snapshot list (each paired with the unchanged payload), for every
handler semantics `run` — including ones that subscribe or unsubscribe
listeners mid-dispatch, since the trace never consults the mutated
registry; and subscribing appends to the end of the snapshot, so stored
order is subscription order. -/
theorem emit_snapshot_dispatch [DecidableEq τ]
    (run : HandlerSem τ H π α ε) (eventName : τ) (p : π) (s : Sys τ H α) :
    (emitTrace run eventName p s).1 = emit run eventName p s
    ∧ (emitTrace run eventName p s).2
        = (listenersD s eventName).map (fun h => (h, p))
    ∧ ∀ (h' : H) (d : α),
        listenersD (Sys.mk (on' s.bus eventName h') d) eventName
          = listenersD s eventName ++ [h'] := by
  refine ⟨?_, ?_, fun h' d => listenersD_on_self s eventName h' d⟩
  · unfold emitTrace emit
    cases mapGet s.bus.events eventName <;> simp [dispatchTrace_fst]
  · unfold emitTrace listenersD
    cases mapGet s.bus.events eventName <;> simp [dispatchTrace_snd]

/-- C8 counterexample: subscribing the same listener (`5`) twice to `"t"`
and calling `off("t", 5)` once removes BOTH subscriptions (the `filter`
drops every array element identical to the listener) and deletes the topic,
instead of leaving one subscription as the claim states. -/
theorem off_duplicate_counterexample :
    (EventBus.off (EventBus.on' (EventBus.on'
        (⟨[]⟩ : EventBus.Bus String Nat) "t" 5) "t" 5) "t" 5).events = []
    ∧ mapGet (EventBus.on' (EventBus.on'
        (⟨[]⟩ : EventBus.Bus String Nat) "t" 5) "t" 5).events "t" = some [5, 5]
    ∧ mapGet (EventBus.off (EventBus.on' (EventBus.on'
        (⟨[]⟩ : EventBus.Bus String Nat) "t" 5) "t" 5) "t" 5).events "t"
        ≠ some [5] := by
  decide

/-- C8 (amended): `off(topic, handler)` removes every subscription of that
handler from the topic (the subscriber list becomes its `filter`); when the
filtered list is empty the topic is removed from the active-topic set
entirely; and publishing to a topic with no entry is a silent no-op. -/
theorem off_removes_all_instances [DecidableEq τ] [DecidableEq H]
    (b : Bus τ H) (eventName : τ) (listener : H) (hs : List H)
    (hsnap : mapGet b.events eventName = some hs) :
    (hs.filter (fun l => decide (l ≠ listener)) = [] →
      ∀ e ∈ (off b eventName listener).events, e.1 ≠ eventName)
    ∧ (hs.filter (fun l => decide (l ≠ listener)) ≠ [] →
      mapGet (off b eventName listener).events eventName
        = some (hs.filter (fun l => decide (l ≠ listener))))
    ∧ ∀ {π α ε : Type} (run : HandlerSem τ H π α ε) (p : π) (s : Sys τ H α),
        mapGet s.bus.events eventName = none → emit run eventName p s = s := by
  refine ⟨?_, ?_, ?_⟩
  · intro hempty e he
    unfold off at he
    rw [hsnap] at he
    simp only [hempty, List.isEmpty_nil, if_pos] at he
    simp only [mapRemove, List.mem_filter, decide_eq_true_eq] at he
    exact he.2
  · intro hne
    unfold off
    rw [hsnap]
    simp only [List.isEmpty_iff, hne, if_neg, not_false_iff]
    exact mapGet_mapSet_self _ _ _
  · intro π α ε run p s hnone
    unfold emit
    rw [hnone]

/-- Witness for C8 (amended) at a concrete input: removing listener `5`
from `"t"` with snapshot `[5, 6]` leaves exactly `[6]`, and publishing on a
topic with no entry returns the state unchanged. -/
theorem off_removes_all_instances_witness :
    mapGet (EventBus.off (⟨[("v", [5, 6])]⟩ : EventBus.Bus String Nat)
        "v" 5).events "v" = some [6]
    ∧ EventBus.emit Demo.demoRun "v" 4 Demo.demoSys = Demo.demoSys := by
  have happ := off_removes_all_instances
    (⟨[("v", [5, 6])]⟩ : EventBus.Bus String Nat) "v" 5 [5, 6] (by decide)
  refine ⟨?_, ?_⟩
  · have := happ.2.1 (by decide)
    simpa using this
  · exact happ.2.2 Demo.demoRun 4 Demo.demoSys (by decide)

end EventBus

namespace Inventory

theorem allStockNonneg_mapSet (inv : List (String × Item)) (k : String)
    (v : Item) (hnn : allStockNonneg inv) (hv : 0 ≤ v.stock) :
    allStockNonneg (mapSet inv k v) := by
  unfold mapSet
  split
  · intro e he
    obtain ⟨e', he', rfl⟩ := List.mem_map.mp he
    by_cases h : e'.1 = k
    · simpa [h] using hv
    · simpa [h] using hnn e' he'
  · intro e he
    rcases List.mem_append.mp he with h | h
    · exact hnn e h
    · simp only [List.mem_singleton] at h
      subst h
      exact hv

/-- C2: `checkAndReserveItem` publishes `order:inventory_unavailable` and
leaves stock and reservations untouched when the item is absent; publishes
`order:out_of_stock` and leaves them untouched when `stock <= 0`; otherwise
decrements exactly that item's stock by 1 (every other item's stock is
unchanged), makes the single reservation for the orderId carry quantity 1
and status `"reserved"` (other orderIds untouched), and publishes
`order:inventory_reserved`. -/
theorem checkAndReserveItem_spec (inv : List (String × Item))
    (res : List (String × Reservation)) (threshold : Int) (d : OrderInfo)
    (now : String) :
    (mapGet inv d.item = none →
      checkAndReserveItem inv res threshold d now
        = (inv, res, [InvEvent.inventoryUnavailable d]))
    ∧ (∀ it, mapGet inv d.item = some it → it.stock ≤ 0 →
      checkAndReserveItem inv res threshold d now
        = (inv, res, [InvEvent.outOfStock d]))
    ∧ (∀ it, mapGet inv d.item = some it → 0 < it.stock →
      mapGet (checkAndReserveItem inv res threshold d now).1 d.item
          = some { it with stock := it.stock - 1 }
      ∧ (∀ n, n ≠ d.item →
          mapGet (checkAndReserveItem inv res threshold d now).1 n
            = mapGet inv n)
      ∧ (checkAndReserveItem inv res threshold d now).2.1
          = mapSet res d.orderId ⟨d.item, 1, it.price, now, "reserved", none⟩
      ∧ mapGet (checkAndReserveItem inv res threshold d now).2.1 d.orderId
          = some ⟨d.item, 1, it.price, now, "reserved", none⟩
      ∧ (∀ oid, oid ≠ d.orderId →
          mapGet (checkAndReserveItem inv res threshold d now).2.1 oid
            = mapGet res oid)
      ∧ InvEvent.inventoryReserved d
          ∈ (checkAndReserveItem inv res threshold d now).2.2) := by
  refine ⟨?_, ?_, ?_⟩
  · intro hnone
    unfold checkAndReserveItem
    rw [hnone]
  · intro it hget hle
    unfold checkAndReserveItem
    rw [hget]
    simp [hle]
  · intro it hget hpos
    have hnle : ¬ it.stock ≤ 0 := not_le.mpr hpos
    have hres : checkAndReserveItem inv res threshold d now
        = (mapSet inv d.item { it with stock := it.stock - 1 },
           mapSet res d.orderId ⟨d.item, 1, it.price, now, "reserved", none⟩,
           (if it.stock - 1 ≤ threshold then
              [InvEvent.lowStock d.item (it.stock - 1) threshold]
            else []) ++ [InvEvent.inventoryReserved d]) := by
      unfold checkAndReserveItem
      rw [hget]
      simp [hnle]
    rw [hres]
    refine ⟨mapGet_mapSet_self _ _ _,
      fun n hn => mapGet_mapSet_ne _ _ _ _ hn, rfl,
      mapGet_mapSet_self _ _ _,
      fun oid hoid => mapGet_mapSet_ne _ _ _ _ hoid, by simp⟩

/-- Witness for C2 at a concrete input: reserving `"MacBook Pro"` (stock 10)
for order `"O1"` leaves stock 9, leaves `"iPhone 15"` untouched, records
the quantity-1 `"reserved"` reservation and emits
`order:inventory_reserved`. -/
theorem checkAndReserveItem_spec_witness :
    mapGet (checkAndReserveItem initialInventory [] lowStockThreshold
        ⟨"O1", "MacBook Pro"⟩ "t").1 "MacBook Pro"
      = some ⟨9, 239999, "laptops"⟩
    ∧ mapGet (checkAndReserveItem initialInventory [] lowStockThreshold
        ⟨"O1", "MacBook Pro"⟩ "t").1 "iPhone 15"
      = mapGet initialInventory "iPhone 15"
    ∧ mapGet (checkAndReserveItem initialInventory [] lowStockThreshold
        ⟨"O1", "MacBook Pro"⟩ "t").2.1 "O1"
      = some ⟨"MacBook Pro", 1, 239999, "t", "reserved", none⟩
    ∧ InvEvent.inventoryReserved ⟨"O1", "MacBook Pro"⟩
        ∈ (checkAndReserveItem initialInventory [] lowStockThreshold
            ⟨"O1", "MacBook Pro"⟩ "t").2.2 := by
  have happ := (checkAndReserveItem_spec initialInventory [] lowStockThreshold
    ⟨"O1", "MacBook Pro"⟩ "t").2.2 ⟨10, 239999, "laptops"⟩ (by decide)
    (by decide)
  exact ⟨happ.1, happ.2.1 "iPhone 15" (by decide), happ.2.2.2.1,
    happ.2.2.2.2.2⟩

/-- C5 counterexample: from the seeded inventory (all stocks non-negative),
the unguarded `addStock` with a negative quantity drives
`"MacBook Pro"`'s stock to `-1`, violating the invariant. -/
theorem addStock_negative_counterexample :
    allStockNonneg initialInventory
    ∧ mapGet (addStock initialInventory "MacBook Pro" (-11)).1 "MacBook Pro"
        = some ⟨-1, 239999, "laptops"⟩
    ∧ ¬ allStockNonneg (addStock initialInventory "MacBook Pro" (-11)).1 := by
  exact ⟨by decide, by decide, by decide⟩

/-- C5 (amended): every inventory operation preserves non-negativity of all
stocks provided `addStock` is called with a non-negative quantity and
`addProduct` with a non-negative (or omitted) initial stock; in particular
a reservation never drives a stock below 0 unconditionally, since it only
decrements a stock that was `> 0` (delivery handling touches no stock at
all). -/
theorem stock_nonneg_preserved (inv : List (String × Item))
    (res : List (String × Reservation)) (threshold : Int) (d : OrderInfo)
    (now : String) (stockName newName : String) (q : Int) (pd : ProductData)
    (hnn : allStockNonneg inv) :
    allStockNonneg (checkAndReserveItem inv res threshold d now).1
    ∧ (0 ≤ q → allStockNonneg (addStock inv stockName q).1)
    ∧ (0 ≤ pd.stock.getD 0 → allStockNonneg (addProduct inv newName pd).1) := by
  refine ⟨?_, ?_, ?_⟩
  · unfold checkAndReserveItem
    cases hget : mapGet inv d.item with
    | none => exact hnn
    | some it =>
      by_cases hle : it.stock ≤ 0
      · simpa [hle] using hnn
      · simp only [hle, if_neg, not_false_iff]
        refine allStockNonneg_mapSet inv d.item _ hnn ?_
        show 0 ≤ it.stock - 1
        omega
  · intro hq
    unfold addStock
    cases hget : mapGet inv stockName with
    | none => exact hnn
    | some it =>
      have hmem := mapGet_some_mem inv stockName it hget
      have hstock : 0 ≤ it.stock := hnn _ hmem
      refine allStockNonneg_mapSet inv stockName _ hnn ?_
      show 0 ≤ it.stock + q
      omega
  · intro hpd
    unfold addProduct
    exact allStockNonneg_mapSet inv newName _ hnn hpd

/-- Witness for C5 (amended) at concrete inputs: a reservation, a
non-negative restock and a new product with non-negative stock all keep the
seeded inventory non-negative. -/
theorem stock_nonneg_preserved_witness :
    allStockNonneg (checkAndReserveItem initialInventory [] lowStockThreshold
        ⟨"O1", "MacBook Pro"⟩ "t").1
    ∧ allStockNonneg (addStock initialInventory "iPad Air" 7).1
    ∧ allStockNonneg (addProduct initialInventory "Vision Pro"
        ⟨some 3, some 1, none⟩).1 := by
  have happ := stock_nonneg_preserved initialInventory [] lowStockThreshold
    ⟨"O1", "MacBook Pro"⟩ "t" "iPad Air" "Vision Pro" 7
    ⟨some 3, some 1, none⟩ (by decide)
  exact ⟨happ.1, happ.2.1 (by decide), happ.2.2 (by decide)⟩

/-- C7 counterexample: re-handling the delivery of an already-`fulfilled`
reservation at a later time `"t2"` is NOT a field-preserving no-op: the
source unconditionally re-stamps `fulfilledAt = new Date()`, so the
fulfillment timestamp changes from `"t1"` to `"t2"`. -/
theorem handleDelivery_restamps_counterexample :
    handleDelivery
        [("O1", ⟨"MacBook Pro", 1, 239999, "t0", "fulfilled", some "t1"⟩)]
        "O1" "t2"
      = [("O1", ⟨"MacBook Pro", 1, 239999, "t0", "fulfilled", some "t2"⟩)]
    ∧ handleDelivery
        [("O1", ⟨"MacBook Pro", 1, 239999, "t0", "fulfilled", some "t1"⟩)]
        "O1" "t2"
      ≠ [("O1", ⟨"MacBook Pro", 1, 239999, "t0", "fulfilled", some "t1"⟩)] := by
  exact ⟨by decide, by decide⟩

/-- C7 (amended): handling a delivery for an orderId with no reservation is
a no-op (no error, no state change); re-handling the delivery of an
already-`fulfilled` reservation changes nothing except re-stamping its
`fulfilledAt` to the handling time (status stays `"fulfilled"`, every other
field and every other reservation is unchanged). -/
theorem handleDelivery_idempotent_spec (res : List (String × Reservation))
    (orderId : String) (now : String) :
    (mapGet res orderId = none → handleDelivery res orderId now = res)
    ∧ (∀ r, mapGet res orderId = some r → r.status = "fulfilled" →
      mapGet (handleDelivery res orderId now) orderId
          = some { r with fulfilledAt := some now }
      ∧ ∀ k, k ≠ orderId →
          mapGet (handleDelivery res orderId now) k = mapGet res k) := by
  constructor
  · intro hnone
    unfold handleDelivery
    rw [hnone]
  · intro r hget hful
    have heq : ({ r with status := "fulfilled", fulfilledAt := some now }
        : Reservation) = { r with fulfilledAt := some now } := by
      obtain ⟨i, q, p, ra, st, fa⟩ := r
      simp only at hful
      rw [hful]
    have hres : handleDelivery res orderId now
        = mapSet res orderId
            { r with status := "fulfilled", fulfilledAt := some now } := by
      unfold handleDelivery
      rw [hget]
    rw [heq] at hres
    rw [hres]
    exact ⟨mapGet_mapSet_self _ _ _,
      fun k hk => mapGet_mapSet_ne _ _ _ _ hk⟩

/-- Witness for C7 (amended) at concrete inputs: delivery of an unknown
orderId is a no-op, and re-delivery of a fulfilled reservation at the same
timestamp leaves the reservation exactly as it was. -/
theorem handleDelivery_idempotent_spec_witness :
    handleDelivery [] "O9" "t5" = []
    ∧ mapGet (handleDelivery
        [("O1", ⟨"Widget", 1, 5, "t0", "fulfilled", some "t1"⟩)] "O1" "t1")
        "O1"
      = some ⟨"Widget", 1, 5, "t0", "fulfilled", some "t1"⟩ := by
  refine ⟨(handleDelivery_idempotent_spec [] "O9" "t5").1 (by decide), ?_⟩
  have happ := (handleDelivery_idempotent_spec
    [("O1", ⟨"Widget", 1, 5, "t0", "fulfilled", some "t1"⟩)] "O1" "t1").2
    ⟨"Widget", 1, 5, "t0", "fulfilled", some "t1"⟩ (by decide) (by decide)
  exact happ.1

/-- C9: a successful reservation that brings the stock to exactly the
configured threshold emits `inventory:low_stock` with payload
`{item, currentStock = threshold, threshold}` right before
`order:inventory_reserved`; one that leaves the stock one unit above the
threshold emits no low-stock event. -/
theorem low_stock_boundary (inv : List (String × Item))
    (res : List (String × Reservation)) (threshold : Int) (d : OrderInfo)
    (now : String) (it : Item) (hth : 0 ≤ threshold)
    (hget : mapGet inv d.item = some it) :
    (it.stock = threshold + 1 →
      (checkAndReserveItem inv res threshold d now).2.2
        = [InvEvent.lowStock d.item threshold threshold,
           InvEvent.inventoryReserved d])
    ∧ (it.stock = threshold + 2 →
      (checkAndReserveItem inv res threshold d now).2.2
        = [InvEvent.inventoryReserved d]) := by
  constructor
  · intro hstock
    unfold checkAndReserveItem
    rw [hget]
    have h1 : ¬ it.stock ≤ 0 := by omega
    have h2 : it.stock - 1 = threshold := by omega
    simp [h1, h2]
  · intro hstock
    unfold checkAndReserveItem
    rw [hget]
    have h1 : ¬ it.stock ≤ 0 := by omega
    have h2 : ¬ it.stock - 1 ≤ threshold := by omega
    simp [h1, h2]

/-- Witness for C9 at the default threshold 5: reserving from stock 6 emits
the low-stock event at exactly 5; reserving from stock 7 does not. -/
theorem low_stock_boundary_witness :
    (checkAndReserveItem [("Widget", ⟨6, 100, "misc"⟩)] [] lowStockThreshold
        ⟨"O1", "Widget"⟩ "t").2.2
      = [InvEvent.lowStock "Widget" 5 5,
         InvEvent.inventoryReserved ⟨"O1", "Widget"⟩]
    ∧ (checkAndReserveItem [("Widget", ⟨7, 100, "misc"⟩)] [] lowStockThreshold
        ⟨"O1", "Widget"⟩ "t").2.2
      = [InvEvent.inventoryReserved ⟨"O1", "Widget"⟩] := by
  constructor
  · have happ := low_stock_boundary [("Widget", ⟨6, 100, "misc"⟩)] []
      lowStockThreshold ⟨"O1", "Widget"⟩ "t" ⟨6, 100, "misc"⟩
      (by decide) (by decide)
    exact happ.1 (by decide)
  · have happ := low_stock_boundary [("Widget", ⟨7, 100, "misc"⟩)] []
      lowStockThreshold ⟨"O1", "Widget"⟩ "t" ⟨7, 100, "misc"⟩
      (by decide) (by decide)
    exact happ.2 (by decide)

/-- C10: `addStock` on an item name not in the inventory is a silent no-op
(no entry created, no stock changed, no event); on an existing item it
adds `quantity` to the stock and the emitted `inventory:stock_added`
payload's `total` equals the post-increment stock. -/
theorem addStock_spec (inv : List (String × Item)) (itemName : String)
    (q : Int) :
    (mapGet inv itemName = none → addStock inv itemName q = (inv, []))
    ∧ ∀ it, mapGet inv itemName = some it →
        addStock inv itemName q
          = (mapSet inv itemName { it with stock := it.stock + q },
             [InvEvent.stockAdded itemName q (it.stock + q)])
        ∧ mapGet (addStock inv itemName q).1 itemName
            = some { it with stock := it.stock + q } := by
  constructor
  · intro hnone
    unfold addStock
    rw [hnone]
  · intro it hget
    have hres : addStock inv itemName q
        = (mapSet inv itemName { it with stock := it.stock + q },
           [InvEvent.stockAdded itemName q (it.stock + q)]) := by
      unfold addStock
      rw [hget]
    exact ⟨hres, by rw [hres]; exact mapGet_mapSet_self _ _ _⟩

/-- Witness for C10 at concrete inputs: `"Gadget"` is unknown, so nothing
happens and nothing is emitted; `"iPad Air"` (stock 15) plus 4 yields stock
19 and the emitted `total` is 19. -/
theorem addStock_spec_witness :
    addStock initialInventory "Gadget" 4 = (initialInventory, [])
    ∧ addStock initialInventory "iPad Air" 4
        = (mapSet initialInventory "iPad Air" ⟨19, 59999, "tablets"⟩,
           [InvEvent.stockAdded "iPad Air" 4 19])
    ∧ mapGet (addStock initialInventory "iPad Air" 4).1 "iPad Air"
        = some ⟨19, 59999, "tablets"⟩ := by
  have happ := (addStock_spec initialInventory "iPad Air" 4).2
    ⟨15, 59999, "tablets"⟩ (by decide)
  exact ⟨(addStock_spec initialInventory "Gadget" 4).1 (by decide),
    happ.1, happ.2⟩

end Inventory

namespace OrderSvc

/-- C3 counterexample: with order `"A"` already stored, a second call whose
payload has the same `orderId` but a missing `email` fails with
`ValidationError` — not with `DuplicateOrderError` as the claim states
("regardless of the rest of the payload") — because the source validates
before checking for duplicates. The store is unchanged. -/
theorem createOrder_duplicate_invalid_counterexample :
    (createOrder [("A", enrich ⟨some "A", some "a@x", some "X", none⟩ "t0")]
        ⟨some "A", none, some "X", none⟩ "t1").1
      = Except.error (OrderErr.validationError
          "Missing required order fields: orderId, email, item")
    ∧ OrderErr.validationError
          "Missing required order fields: orderId, email, item"
        ≠ OrderErr.duplicateOrderError "A"
    ∧ (createOrder [("A", enrich ⟨some "A", some "a@x", some "X", none⟩ "t0")]
        ⟨some "A", none, some "X", none⟩ "t1").2.1
      = [("A", enrich ⟨some "A", some "a@x", some "X", none⟩ "t0")] := by
  exact ⟨rfl, by decide, rfl⟩

/-- C3 (amended): if any of `orderId`, `email`, `item` is missing (falsy),
`createOrder` fails with `ValidationError` — even when the `orderId`
duplicates a stored order, since validation runs first; if the payload
passes validation and the `orderId` is already stored, it fails with
`DuplicateOrderError` and the existing record is not overwritten. In both
failure cases the order store is unchanged and no `order:created` event is
published. -/
theorem createOrder_failure_spec (orders : List (String × Order))
    (d : OrderData) (now : String) :
    ((truthy d.orderId && truthy d.email && truthy d.item) = false →
      createOrder orders d now
        = (Except.error (OrderErr.validationError
            "Missing required order fields: orderId, email, item"),
           orders, []))
    ∧ (∀ oid existing, d.orderId = some oid →
        (truthy d.orderId && truthy d.email && truthy d.item) = true →
        mapGet orders oid = some existing →
        createOrder orders d now
          = (Except.error (OrderErr.duplicateOrderError oid), orders, [])
        ∧ mapGet (createOrder orders d now).2.1 oid = some existing) := by
  constructor
  · intro hval
    unfold createOrder
    simp [hval]
  · intro oid existing hid hv hdup
    have hres : createOrder orders d now
        = (Except.error (OrderErr.duplicateOrderError oid), orders, []) := by
      rw [hid] at hv
      simp only [Bool.and_eq_true] at hv
      unfold createOrder
      simp [hid, hv.1.1, hv.1.2, hv.2, hdup]
    exact ⟨hres, by rw [hres]; exact hdup⟩

/-- Witness for C3 (amended) at concrete inputs: a payload missing `email`
fails validation, and a validated duplicate of stored order `"A"` fails
with `DuplicateOrderError "A"`, leaving the one-entry store as it was. -/
theorem createOrder_failure_spec_witness :
    createOrder [("A", enrich ⟨some "A", some "a@x", some "X", none⟩ "t0")]
        ⟨some "B", none, some "X", none⟩ "t1"
      = (Except.error (OrderErr.validationError
          "Missing required order fields: orderId, email, item"),
         [("A", enrich ⟨some "A", some "a@x", some "X", none⟩ "t0")], [])
    ∧ createOrder [("A", enrich ⟨some "A", some "a@x", some "X", none⟩ "t0")]
        ⟨some "A", some "b@x", some "Y", none⟩ "t1"
      = (Except.error (OrderErr.duplicateOrderError "A"),
         [("A", enrich ⟨some "A", some "a@x", some "X", none⟩ "t0")], []) := by
  constructor
  · exact (createOrder_failure_spec
      [("A", enrich ⟨some "A", some "a@x", some "X", none⟩ "t0")]
      ⟨some "B", none, some "X", none⟩ "t1").1 (by decide)
  · exact ((createOrder_failure_spec
      [("A", enrich ⟨some "A", some "a@x", some "X", none⟩ "t0")]
      ⟨some "A", some "b@x", some "Y", none⟩ "t1").2 "A"
      (enrich ⟨some "A", some "a@x", some "X", none⟩ "t0")
      rfl (by decide) (by decide)).1

/-- C4: for a valid input (all three fields truthy, orderId not stored,
`now` the non-empty ISO timestamp), `createOrder` returns the enriched
record with `status = "created"` and timestamp `now ≠ ""`, stores exactly
that record under the orderId, and publishes `order:created` carrying the
full enriched record. -/
theorem createOrder_success_spec (orders : List (String × Order))
    (d : OrderData) (now : String) (oid : String)
    (hid : d.orderId = some oid)
    (hv : (truthy d.orderId && truthy d.email && truthy d.item) = true)
    (hnew : mapGet orders oid = none) (hnow : now ≠ "") :
    createOrder orders d now
      = (Except.ok (enrich d now), mapSet orders oid (enrich d now),
         [OrdEvent.orderCreated (enrich d now)])
    ∧ (enrich d now).status = "created"
    ∧ (enrich d now).timestamp = now
    ∧ (enrich d now).timestamp ≠ ""
    ∧ mapGet (createOrder orders d now).2.1 oid = some (enrich d now) := by
  have hres : createOrder orders d now
      = (Except.ok (enrich d now), mapSet orders oid (enrich d now),
         [OrdEvent.orderCreated (enrich d now)]) := by
    rw [hid] at hv
    simp only [Bool.and_eq_true] at hv
    unfold createOrder
    simp [hid, hv.1.1, hv.1.2, hv.2, hnew]
  refine ⟨hres, rfl, rfl, hnow, ?_⟩
  rw [hres]
  exact mapGet_mapSet_self _ _ _

/-- Witness for C4 at a concrete input: creating order `"B1"` in the empty
store returns and stores the enriched record and emits `order:created`. -/
theorem createOrder_success_spec_witness :
    createOrder [] ⟨some "B1", some "b@x", some "iPad Air", none⟩ "t7"
      = (Except.ok (enrich ⟨some "B1", some "b@x", some "iPad Air", none⟩ "t7"),
         mapSet [] "B1" (enrich ⟨some "B1", some "b@x", some "iPad Air", none⟩ "t7"),
         [OrdEvent.orderCreated
            (enrich ⟨some "B1", some "b@x", some "iPad Air", none⟩ "t7")])
    ∧ mapGet (createOrder []
        ⟨some "B1", some "b@x", some "iPad Air", none⟩ "t7").2.1 "B1"
      = some (enrich ⟨some "B1", some "b@x", some "iPad Air", none⟩ "t7") := by
  have happ := createOrder_success_spec []
    ⟨some "B1", some "b@x", some "iPad Air", none⟩ "t7" "B1"
    rfl (by decide) (by decide) (by decide)
  exact ⟨happ.1, happ.2.2.2.2⟩

end OrderSvc
